import Mathlib

/-!
Verification of the SF1+ synthetic-data generators (Snowpark SQL pipelines).

Shallow embedding of the three generation pipelines:
  * `src/snowpark/sf1plus_crm_generator.py`            (customer population, `runCrm`)
  * `src/snowpark/tf1_viewing_logs_generator_high_volume.py` (high-volume events, `runHv`)
  * `src/snowpark/tf1_viewing_logs_generator_simple.py` (calendar-simple events, `runTfs`)
  * `src/snowpark/tf1_viewing_logs_generator.py`        (calendar-weighted device draws)

Modelling conventions:
  * Python `int(round(x))` is modelled by `pyRound` (round half to even) applied to the
    exact rational value of the expression; for every row-count argument that fits in a
    64-bit double's exact integer range this agrees with CPython float semantics.
  * Snowflake `UNIFORM(0, 1, RANDOM())` has two INTEGER bounds and therefore draws an
    INTEGER uniformly from {0, 1}; it is modelled by a parameter of type `Fin 2`, and a
    SQL guard such as `UNIFORM(0,1,RANDOM()) < 0.15` becomes `((u : ℕ) : ℚ) < 0.15`.
  * Snowflake `LPAD(s, n, c)` pads on the left, and truncates to the leftmost `n`
    characters when `s` is longer than `n`; modelled by `lpad`.
  * `ROW_NUMBER() OVER (ORDER BY RANDOM())` orderings and the sampled customer pools are
    nondeterministic inputs; they enter the model as explicit list parameters, with
    `List.Perm` hypotheses recording the facts the SQL guarantees about them.
  * Timestamps are modelled as integer second (or minute) offsets from an arbitrary
    symbolic anchor (`DATE_TRUNC('WEEK', CURRENT_DATE())`).
-/

set_option maxRecDepth 400000

/-- Python 3 `round` on an exact rational: round half to even (banker's rounding).
Uses `Rat.floor` so that concrete instances evaluate inside the kernel. -/
def pyRound (q : ℚ) : ℤ :=
  if q - q.floor < 1/2 then q.floor
  else if 1/2 < q - q.floor then q.floor + 1
  else if q.floor % 2 = 0 then q.floor else q.floor + 1

theorem ratFloor_eq_intFloor (q : ℚ) : q.floor = ⌊q⌋ :=
  (Rat.floor_def' q).trans Rat.floor_def.symm

theorem pyRound_le (q : ℚ) : (pyRound q : ℚ) ≤ q + 1/2 := by
  unfold pyRound
  rw [ratFloor_eq_intFloor]
  have h1 : (⌊q⌋ : ℚ) ≤ q := Int.floor_le q
  have h2 : q - 1 < (⌊q⌋ : ℚ) := Int.sub_one_lt_floor q
  split_ifs with ha hb hc <;> push_cast <;> linarith

theorem le_pyRound (q : ℚ) : q - 1/2 ≤ (pyRound q : ℚ) := by
  unfold pyRound
  rw [ratFloor_eq_intFloor]
  have h1 : (⌊q⌋ : ℚ) ≤ q := Int.floor_le q
  have h2 : q - 1 < (⌊q⌋ : ℚ) := Int.sub_one_lt_floor q
  split_ifs with ha hb hc <;> push_cast <;> linarith


/-! ### String helpers: Snowflake LPAD and decimal representation -/

/-- Snowflake `LPAD(s, n, c)`: left-pad `s` to `n` characters with `c`; when `s` is longer
than `n` characters the result is truncated to the leftmost `n` characters. -/
def lpad (s : String) (n : ℕ) (c : Char) : String :=
  if n ≤ s.length then ⟨s.data.take n⟩
  else ⟨List.replicate (n - s.length) c ++ s.data⟩

theorem lpad_data_of_le (s : String) (n : ℕ) (c : Char) (h : s.length ≤ n) :
    (lpad s n c).data = List.replicate (n - s.length) c ++ s.data := by
  unfold lpad
  by_cases hge : n ≤ s.length
  · have he : s.length = n := le_antisymm h hge
    rw [if_pos hge]
    have h0 : n - s.length = 0 := by omega
    rw [h0, List.replicate_zero, List.nil_append]
    show s.data.take n = s.data
    have hdl : s.data.length = s.length := rfl
    exact List.take_of_length_le (by omega)
  · rw [if_neg hge]

theorem lpad_length (s : String) (n : ℕ) (c : Char) : (lpad s n c).length = n := by
  unfold lpad
  split_ifs with h
  · show (s.data.take n).length = n
    rw [List.length_take]
    have : s.data.length = s.length := rfl
    omega
  · show (List.replicate (n - s.length) c ++ s.data).length = n
    rw [List.length_append, List.length_replicate]
    have : s.data.length = s.length := rfl
    omega

theorem toDigitsCore_eq_digits : ∀ (f n : ℕ) (acc : List Char), 0 < n → n < 10 ^ f →
    Nat.toDigitsCore 10 f n acc = ((Nat.digits 10 n).map Nat.digitChar).reverse ++ acc := by
  intro f
  induction f with
  | zero => intro n acc h1 h2; omega
  | succ f ih =>
    intro n acc h1 h2
    by_cases hd : n / 10 = 0
    · have hn10 : n < 10 := by omega
      rw [Nat.toDigitsCore, if_pos hd, Nat.digits_of_lt 10 n (by omega) hn10]
      simp [Nat.mod_eq_of_lt hn10]
    · have h1' : 0 < n / 10 := Nat.pos_of_ne_zero hd
      have h2' : n / 10 < 10 ^ f := by
        rw [pow_succ] at h2
        omega
      rw [Nat.toDigitsCore, if_neg hd, ih (n / 10) _ h1' h2',
        Nat.digits_def' (by norm_num : (1:ℕ) < 10) h1]
      simp

theorem repr_data_eq (n : ℕ) (h : 0 < n) :
    (Nat.repr n).data = ((Nat.digits 10 n).map Nat.digitChar).reverse := by
  have hlt : n < 10 ^ (n + 1) := by
    calc n < 10 ^ n := Nat.lt_pow_self (by norm_num) n
    _ ≤ 10 ^ (n+1) := Nat.pow_le_pow_right (by norm_num) (Nat.le_succ n)
  rw [Nat.repr, Nat.toDigits, toDigitsCore_eq_digits (n+1) n [] h hlt]
  simp [List.asString]

theorem repr_head_ne_zero (n : ℕ) (h : 0 < n) :
    ∃ c cs, (Nat.repr n).data = c :: cs ∧ c ≠ '0' := by
  have hne : Nat.digits 10 n ≠ [] := Nat.digits_ne_nil_iff_ne_zero.mpr (by omega)
  obtain ⟨l, a, hla⟩ := (List.eq_nil_or_concat (Nat.digits 10 n)).resolve_left hne
  refine ⟨Nat.digitChar a, (l.map Nat.digitChar).reverse, ?_, ?_⟩
  · rw [repr_data_eq n h, hla]
    simp
  · have ha10 : a < 10 := Nat.digits_lt_base (by norm_num) (by rw [hla]; simp)
    have ha0 : a ≠ 0 := by
      have hg := Nat.getLast_digit_ne_zero 10 (show n ≠ 0 by omega)
      have h1 : (Nat.digits 10 n).getLast? = some a := by
        rw [hla, List.concat_eq_append]; exact List.getLast?_concat _
      have h2 := List.getLast?_eq_getLast (Nat.digits 10 n)
        (Nat.digits_ne_nil_iff_ne_zero.mpr (by omega))
      rw [h2] at h1
      have := Option.some.inj h1
      rw [← this]
      exact hg
    have hdc : ∀ x : ℕ, x < 10 → x ≠ 0 → Nat.digitChar x ≠ '0' := by decide
    exact hdc a ha10 ha0

theorem map_digitChar_inj : ∀ l1 l2 : List ℕ, (∀ x ∈ l1, x < 10) → (∀ x ∈ l2, x < 10) →
    l1.map Nat.digitChar = l2.map Nat.digitChar → l1 = l2 := by
  have hdc : ∀ x : ℕ, x < 10 → ∀ y : ℕ, y < 10 → Nat.digitChar x = Nat.digitChar y → x = y := by
    decide
  intro l1
  induction l1 with
  | nil => intro l2 _ _ h; cases l2 <;> simp_all
  | cons a l ih =>
    intro l2 h1 h2 h
    cases l2 with
    | nil => simp_all
    | cons b l2' =>
      simp only [List.map_cons, List.cons.injEq] at h
      have hab : a = b := hdc a (h1 a (by simp)) b (h2 b (by simp)) h.1
      rw [hab, ih l2' (fun x hx => h1 x (by simp [hx])) (fun x hx => h2 x (by simp [hx])) h.2]

theorem repr_inj (m n : ℕ) (hm : 0 < m) (hn : 0 < n) (h : Nat.repr m = Nat.repr n) : m = n := by
  have hd : (Nat.repr m).data = (Nat.repr n).data := by rw [h]
  rw [repr_data_eq m hm, repr_data_eq n hn] at hd
  have hrev := List.reverse_injective hd
  have hdig := map_digitChar_inj _ _ (fun x hx => Nat.digits_lt_base (by norm_num) hx)
    (fun x hx => Nat.digits_lt_base (by norm_num) hx) hrev
  exact Nat.digits.injective 10 hdig

theorem replicate_append_head_inj : ∀ (p q : ℕ) (c d : Char) (cs ds : List Char), c ≠ '0' → d ≠ '0' →
    List.replicate p '0' ++ (c :: cs) = List.replicate q '0' ++ (d :: ds) →
    c :: cs = d :: ds := by
  intro p
  induction p with
  | zero =>
    intro q c d cs ds hc hd h
    cases q with
    | zero => simpa using h
    | succ k =>
      rw [List.replicate_succ] at h
      simp only [List.replicate_zero, List.nil_append, List.cons_append, List.cons.injEq] at h
      exact absurd h.1 hc
  | succ k ih =>
    intro q c d cs ds hc hd h
    cases q with
    | zero =>
      rw [List.replicate_succ] at h
      simp only [List.replicate_zero, List.nil_append, List.cons_append, List.cons.injEq] at h
      exact absurd h.1.symm hd
    | succ j =>
      rw [List.replicate_succ, List.replicate_succ] at h
      simp only [List.cons_append, List.cons.injEq] at h
      exact ih j c d cs ds hc hd (by simpa using h.2)

theorem lpad_repr_inj (w : ℕ) (hw : 0 < w) (m n : ℕ) (hm : 0 < m) (hn : 0 < n)
    (hm' : m < 10 ^ w) (hn' : n < 10 ^ w)
    (h : lpad (Nat.repr m) w '0' = lpad (Nat.repr n) w '0') : m = n := by
  have hlm : (Nat.repr m).length ≤ w := Nat.repr_length m w hw hm'
  have hln : (Nat.repr n).length ≤ w := Nat.repr_length n w hw hn'
  have hdata : (lpad (Nat.repr m) w '0').data = (lpad (Nat.repr n) w '0').data := by rw [h]
  rw [lpad_data_of_le _ _ _ hlm, lpad_data_of_le _ _ _ hln] at hdata
  obtain ⟨c, cs, hc, hc0⟩ := repr_head_ne_zero m hm
  obtain ⟨d, ds, hd, hd0⟩ := repr_head_ne_zero n hn
  rw [hc, hd] at hdata
  have := replicate_append_head_inj _ _ c d cs ds hc0 hd0 hdata
  have hde : (Nat.repr m).data = (Nat.repr n).data := by rw [hc, hd, this]
  exact repr_inj m n hm hn (by apply String.ext; exact hde)

/-! ### Customer Population Synthesizer: allocation arithmetic

Source: `sf1plus_crm_generator.py`, lines 45-57. -/

/-- Embeds `base_count = int(round(target_rows * 0.90))`. -/
def baseCount (t : ℕ) : ℤ := pyRound ((t : ℚ) * 0.90)

/-- Embeds `dup_count = target_rows - base_count`. -/
def dupCount (t : ℕ) : ℤ := (t : ℤ) - baseCount t

/-- Embeds `overlap_total_target = int(round(target_rows * 0.25))`. -/
def overlapTotal (t : ℕ) : ℤ := pyRound ((t : ℚ) * 0.25)

/-- Embeds `triple_count = int(round(overlap_total_target * 8 / 25))` (shares 8:10:7, sum 25). -/
def tripleCount (t : ℕ) : ℤ := pyRound ((overlapTotal t : ℚ) * 8 / 25)

/-- Embeds `email_extra_count = int(round(overlap_total_target * 10 / 25))`. -/
def emailCount (t : ℕ) : ℤ := pyRound ((overlapTotal t : ℚ) * 10 / 25)

/-- Embeds `phone_extra_count = overlap_total_target - triple_count - email_extra_count`. -/
def phoneCount (t : ℕ) : ℤ := overlapTotal t - tripleCount t - emailCount t

/-- Overlap categories of a customer record (column `overlap_type`). -/
inductive OverlapType where
  | TRIPLE | EMAIL | PHONE | NONE | DUPLICATE
deriving DecidableEq

/-- Embeds the `assigned` CTE's threshold CASE: `t_triple = triple_count`,
`t_email = triple_count + email_extra_count`,
`t_phone = triple_count + email_extra_count + phone_extra_count`. -/
def overlapTypeOf (t rowId : ℕ) : OverlapType :=
  if (rowId : ℤ) ≤ tripleCount t then .TRIPLE
  else if (rowId : ℤ) ≤ tripleCount t + emailCount t then .EMAIL
  else if (rowId : ℤ) ≤ tripleCount t + emailCount t + phoneCount t then .PHONE
  else .NONE

/-! ### Customer Population Synthesizer: data model

Source: `sf1plus_crm_generator.py`, lines 59-238 (the `tmp_source`, `tmp_base` and
`tmp_final` statements of `run`). -/

/-- Row of the reference population `CROCEVIA_DB.RAW_DATA.CROCEVIA_CRM`
(columns used by the generator). -/
structure SrcRow where
  email : Option String
  phone : Option String
  firstName : Option String
  lastName : Option String
deriving DecidableEq

/-- Embeds the `tmp_source` WHERE clause: `EMAIL IS NOT NULL OR PHONE IS NOT NULL`.
The subsequent `ROW_NUMBER() OVER (ORDER BY RANDOM())` shuffle is modelled by passing a
permutation of this list to the run; element at index `k-1` carries `SRC_RN = k`. -/
def sourceFilter (rows : List SrcRow) : List SrcRow :=
  rows.filter (fun r => r.email.isSome || r.phone.isSome)

/-- Embeds `src_k = (row_id % NULLIF(MAX(SRC_RN), 0)) + 1` followed by
`LEFT JOIN tmp_source ON SRC_RN = src_k`: for an empty source the NULLIF makes the key
NULL and the join yields no partner (`none`); otherwise the partner is the element with
`SRC_RN = (row_id % src.length) + 1`, i.e. index `row_id % src.length`. -/
def srcRowFor (src : List SrcRow) (rowId : ℕ) : Option SrcRow :=
  if src.isEmpty then none else src.get? (rowId % src.length)

/-- Fixed first-name lookup table (`CASE (b.row_id % 20) ... END`, index 19 is the ELSE). -/
def firstNames : List String :=
  ["Jean", "Marie", "Pierre", "Sophie", "Michel", "Catherine", "Philippe", "Nathalie",
   "Alain", "Isabelle", "François", "Sylvie", "Bernard", "Martine", "Patrick", "Christine",
   "Daniel", "Françoise", "Thierry", "Monique"]

/-- Fixed last-name lookup table (`CASE (b.row_id % 25) ... END`, index 24 is the ELSE). -/
def lastNames : List String :=
  ["Martin", "Bernard", "Dubois", "Thomas", "Robert", "Petit", "Richard", "Durand",
   "Leroy", "Moreau", "Simon", "Laurent", "Lefebvre", "Michel", "Garcia", "David",
   "Bertrand", "Roux", "Vincent", "Fournier", "Morel", "Girard", "Andre", "Lefevre",
   "Mercier"]

/-- Embeds `gen_first_name`: deterministic modulo lookup. -/
def genFirstName (rowId : ℕ) : String := firstNames.getD (rowId % 20) "Monique"

/-- Embeds `gen_last_name`: deterministic modulo lookup. -/
def genLastName (rowId : ℕ) : String := lastNames.getD (rowId % 25) "Mercier"

/-- Snowflake `LOWER` restricted to ASCII letters (the generated names only carry ASCII
upper-case initials, so this matches the warehouse semantics on every input used). -/
def lowerChar (c : Char) : Char :=
  if 'A' ≤ c ∧ c ≤ 'Z' then Char.ofNat (c.toNat + 32) else c

/-- Lower-casing a whole string, character by character. -/
def lowerStr (s : String) : String := ⟨s.data.map lowerChar⟩

/-- Fixed email-domain lookup table (`CASE (row_id % 6) ... END`, index 5 is the ELSE). -/
def emailDomains : List String :=
  ["gmail.com", "orange.fr", "free.fr", "wanadoo.fr", "sfr.fr", "laposte.net"]

/-- Embeds the synthesized email
`LOWER(gen_first_name) || '.' || LOWER(gen_last_name) || '@' || domain`. -/
def genEmail (rowId : ℕ) : String :=
  lowerStr (genFirstName rowId) ++ "." ++ lowerStr (genLastName rowId) ++ "@" ++
    emailDomains.getD (rowId % 6) "laposte.net"

/-- Embeds the synthesized phone
`'0' || (1 + (row_id % 6)) || ' ' || LPAD(UNIFORM(10,99,RANDOM()),2,'0') || ...` where
`g` carries the four independent `UNIFORM(10, 99, RANDOM())` integer draws of the row. -/
def genPhone (rowId : ℕ) (g : Fin 4 → ℕ) : String :=
  "0" ++ Nat.repr (1 + rowId % 6) ++ " " ++
    lpad (Nat.repr (g 0)) 2 '0' ++ " " ++ lpad (Nat.repr (g 1)) 2 '0' ++ " " ++
    lpad (Nat.repr (g 2)) 2 '0' ++ " " ++ lpad (Nat.repr (g 3)) 2 '0'

/-- Embeds `email_raw`: TRIPLE and EMAIL rows borrow `SRC_EMAIL` verbatim (possibly NULL),
all other rows synthesize an address. -/
def emailRawOf (t rowId : ℕ) (s : Option SrcRow) : Option String :=
  match overlapTypeOf t rowId with
  | .TRIPLE => s.bind SrcRow.email
  | .EMAIL => s.bind SrcRow.email
  | _ => some (genEmail rowId)

/-- Embeds `phone_raw`: TRIPLE and PHONE rows borrow `SRC_PHONE` verbatim (possibly NULL),
all other rows synthesize a number. -/
def phoneRawOf (t rowId : ℕ) (s : Option SrcRow) (g : Fin 4 → ℕ) : Option String :=
  match overlapTypeOf t rowId with
  | .TRIPLE => s.bind SrcRow.phone
  | .PHONE => s.bind SrcRow.phone
  | _ => some (genPhone rowId g)

/-- Embeds `first_name`: `CASE overlap_type WHEN 'TRIPLE' THEN
COALESCE(SRC_FIRST_NAME, gen_first_name) ELSE gen_first_name END`. -/
def firstNameOf (t rowId : ℕ) (s : Option SrcRow) : String :=
  match overlapTypeOf t rowId with
  | .TRIPLE => (s.bind SrcRow.firstName).getD (genFirstName rowId)
  | _ => genFirstName rowId

/-- Embeds `last_name` analogously to `firstNameOf`. -/
def lastNameOf (t rowId : ℕ) (s : Option SrcRow) : String :=
  match overlapTypeOf t rowId with
  | .TRIPLE => (s.bind SrcRow.lastName).getD (genLastName rowId)
  | _ => genLastName rowId

/-- Embeds the email missingness CASE of the `with_missing` CTE:
`CASE WHEN overlap_type IN ('TRIPLE','EMAIL') THEN email_raw
      WHEN UNIFORM(0,1,RANDOM()) < 0.15 THEN NULL ELSE email_raw END`.
The integer draw `u ∈ {0,1}` is a model of `UNIFORM(0,1,RANDOM())`. -/
def emailFinal (t rowId : ℕ) (u : Fin 2) (raw : Option String) : Option String :=
  if overlapTypeOf t rowId = .TRIPLE ∨ overlapTypeOf t rowId = .EMAIL then raw
  else if ((u : ℕ) : ℚ) < 0.15 then none
  else raw

/-- Embeds the phone missingness CASE of the `with_missing` CTE (threshold 0.20,
categories TRIPLE and PHONE). -/
def phoneFinal (t rowId : ℕ) (u : Fin 2) (raw : Option String) : Option String :=
  if overlapTypeOf t rowId = .TRIPLE ∨ overlapTypeOf t rowId = .PHONE then raw
  else if ((u : ℕ) : ℚ) < 0.20 then none
  else raw

/-- Fixed profession lookup table (`CASE (row_id % 8) ... END`, index 7 is the ELSE). -/
def professions : List String :=
  ["Engineer", "Teacher", "Student", "Nurse", "Sales", "Artist", "Manager", "Consultant"]

/-- Fixed subscription lookup table (`CASE (row_id % 4) ... END`, index 3 is the ELSE). -/
def subscriptionLevels : List String := ["FREE", "BASIC", "STANDARD", "PREMIUM"]

/-- Row of the output table `SF1PLUS_DB.RAW_DATA.SF1PLUS_CRM`. `date_joined` is a day
offset relative to `CURRENT_DATE()`. -/
structure CrmRecord where
  customer_id : String
  first_name : String
  last_name : String
  email : Option String
  phone : Option String
  gender : String
  profession : String
  date_joined : ℤ
  subscription_level : String
  overlap_type : OverlapType
deriving DecidableEq

/-- Per-row random draws consumed by one run of the CRM generator. `ue`/`up` are the
`UNIFORM(0,1,RANDOM())` integer draws guarding email/phone missingness per `row_id`;
`pg` the four `UNIFORM(10,99,RANDOM())` digit-group draws of the synthesized phone;
`dj` the `UNIFORM(0,3650,RANDOM())` day offset; `me`/`md` (resp. `mp`/`mq`) the mutation
coin and digit draws of the duplicate rows, indexed by position in the duplicate batch. -/
structure CrmRand where
  ue : ℕ → Fin 2
  up : ℕ → Fin 2
  pg : ℕ → Fin 4 → ℕ
  dj : ℕ → ℕ
  me : ℕ → Fin 2
  md : ℕ → Fin 10
  mp : ℕ → Fin 2
  mq : ℕ → Fin 10

/-- One base record of the `with_missing` CTE, for dense `row_id ∈ 1..base_count`. -/
def mkBaseRecord (t rowId : ℕ) (src : List SrcRow) (r : CrmRand) : CrmRecord :=
  { customer_id := "SF1-" ++ lpad (Nat.repr rowId) 10 '0'
    first_name := firstNameOf t rowId (srcRowFor src rowId)
    last_name := lastNameOf t rowId (srcRowFor src rowId)
    email := emailFinal t rowId (r.ue rowId) (emailRawOf t rowId (srcRowFor src rowId))
    phone := phoneFinal t rowId (r.up rowId)
      (phoneRawOf t rowId (srcRowFor src rowId) (r.pg rowId))
    gender := if rowId % 2 = 0 then "Male" else "Female"
    profession := professions.getD (rowId % 8) "Consultant"
    date_joined := -((r.dj rowId : ℤ))
    subscription_level := subscriptionLevels.getD (rowId % 4) "PREMIUM"
    overlap_type := overlapTypeOf t rowId }

/-- Number of base rows (`GENERATOR(ROWCOUNT => base_count)`), as a natural number. -/
def baseN (t : ℕ) : ℕ := (baseCount t).toNat

/-- Number of duplicate rows, as a natural number. -/
def dupN (t : ℕ) : ℕ := (dupCount t).toNat

/-- Overlap row total, as a natural number. -/
def overlapN (t : ℕ) : ℕ := (overlapTotal t).toNat

/-- Embeds the `tmp_base` table: one record per `row_id ∈ 1..base_count`. -/
def baseTable (t : ℕ) (src : List SrcRow) (r : CrmRand) : List CrmRecord :=
  (List.range (baseN t)).map (fun i => mkBaseRecord t (i + 1) src r)

/-- Embeds `REGEXP_REPLACE(email, '@', <digit> || '@')`: every `@` gains the random
digit `d` in front of it. -/
def mutEmail (d : ℕ) (e : String) : String :=
  ⟨(e.data.map (fun c => if c = '@' then (Nat.repr d).data ++ ['@'] else [c])).flatten⟩

/-- Embeds `SUBSTR(phone, 1, LENGTH(phone)-1) || <digit>`. -/
def mutPhone (d : ℕ) (p : String) : String :=
  ⟨p.data.take (p.data.length - 1)⟩ ++ Nat.repr d

/-- Embeds one row of the `dups` CTE: id suffixed `_DUP`, email/phone independently
mutated with probability 1/2 (`UNIFORM(0,1,RANDOM()) < 0.5 AND ... IS NOT NULL`),
category re-tagged DUPLICATE. `i` is the position in the duplicate batch. -/
def mutateDup (r : CrmRand) (i : ℕ) (rec : CrmRecord) : CrmRecord :=
  { rec with
    customer_id := rec.customer_id ++ "_DUP"
    email := if ((r.me i : ℕ) : ℚ) < 0.5 ∧ rec.email ≠ none
      then rec.email.map (mutEmail (r.md i)) else rec.email
    phone := if ((r.mp i : ℕ) : ℚ) < 0.5 ∧ rec.phone ≠ none
      then rec.phone.map (mutPhone (r.mq i)) else rec.phone
    overlap_type := .DUPLICATE }

/-- Embeds the `dups` CTE: a random reordering `sel` of the NONE-category base rows
(`QUALIFY ROW_NUMBER() OVER (ORDER BY RANDOM()) <= dup_count` keeps the first
`dup_count` of it), each row mutated. Theorems carry the hypothesis that `sel` is a
permutation of the NONE-category subset of `baseTable`. -/
def dupRows (t : ℕ) (r : CrmRand) (sel : List CrmRecord) : List CrmRecord :=
  ((sel.take (dupN t)).enum).map (fun p => mutateDup r p.1 p.2)

/-- Embeds the `tmp_final` table: `SELECT * FROM tmp_base UNION ALL SELECT ... FROM dups`. -/
def finalTable (t : ℕ) (src : List SrcRow) (r : CrmRand) (sel : List CrmRecord) :
    List CrmRecord :=
  baseTable t src r ++ dupRows t r sel

/-- Error taxonomy named by the specification. The generator's code contains no raise
statement and no SQL construct that can signal these conditions: the single potentially
failing expression (`row_id % MAX(SRC_RN)` on an empty source) is wrapped in
`NULLIF(..., 0)`, which converts it to NULL instead of an error. -/
inductive CrmError where
  | DataSourceError | ConfigurationError | ExecutionError
deriving DecidableEq

/-- Embeds `run(session, target_rows, overwrite)` in overwrite mode: builds the final
table. No input makes the pipeline raise, so the result is always `Except.ok`. -/
def runCrm (t : ℕ) (src : List SrcRow) (r : CrmRand) (sel : List CrmRecord) :
    Except CrmError (List CrmRecord) :=
  .ok (finalTable t src r sel)

/-- Constant random bundle used to instantiate witnesses. -/
def constRand : CrmRand :=
  { ue := fun _ => 0, up := fun _ => 0, pg := fun _ _ => 10, dj := fun _ => 0,
    me := fun _ => 0, md := fun _ => 0, mp := fun _ => 0, mq := fun _ => 0 }

/-! ### Allocation bounds -/

theorem int_nonneg_of_gt_neg_one (x : ℤ) (h : (-1 : ℚ) < (x : ℚ)) : 0 ≤ x := by
  have h2 : (-1 : ℤ) < x := by exact_mod_cast h
  omega

theorem baseCount_nonneg (t : ℕ) : 0 ≤ baseCount t := by
  have h := le_pyRound ((t : ℚ) * 0.90)
  have ht : (0 : ℚ) ≤ (t : ℚ) := Nat.cast_nonneg t
  apply int_nonneg_of_gt_neg_one
  unfold baseCount
  nlinarith

theorem overlapTotal_nonneg (t : ℕ) : 0 ≤ overlapTotal t := by
  have h := le_pyRound ((t : ℚ) * 0.25)
  have ht : (0 : ℚ) ≤ (t : ℚ) := Nat.cast_nonneg t
  apply int_nonneg_of_gt_neg_one
  unfold overlapTotal
  nlinarith

theorem baseCount_le_t (t : ℕ) : baseCount t ≤ t := by
  by_cases h5 : t ≤ 4
  · interval_cases t <;> with_unfolding_all decide
  · have h := pyRound_le ((t : ℚ) * 0.90)
    have ht : (5 : ℚ) ≤ (t : ℚ) := by exact_mod_cast by omega
    have : (baseCount t : ℚ) ≤ (t : ℚ) := by unfold baseCount; nlinarith
    exact_mod_cast this

theorem overlapTotal_le_baseCount (t : ℕ) : overlapTotal t ≤ baseCount t := by
  by_cases h2 : t ≤ 1
  · interval_cases t <;> with_unfolding_all decide
  · have ha := pyRound_le ((t : ℚ) * 0.25)
    have hb := le_pyRound ((t : ℚ) * 0.90)
    have ht : (2 : ℚ) ≤ (t : ℚ) := by exact_mod_cast by omega
    have : (overlapTotal t : ℚ) ≤ (baseCount t : ℚ) := by
      unfold overlapTotal baseCount
      nlinarith
    exact_mod_cast this

theorem tripleCount_nonneg (t : ℕ) : 0 ≤ tripleCount t := by
  have h := le_pyRound ((overlapTotal t : ℚ) * 8 / 25)
  have hv : (0 : ℚ) ≤ (overlapTotal t : ℚ) := by exact_mod_cast overlapTotal_nonneg t
  apply int_nonneg_of_gt_neg_one
  unfold tripleCount
  nlinarith

theorem emailCount_nonneg (t : ℕ) : 0 ≤ emailCount t := by
  have h := le_pyRound ((overlapTotal t : ℚ) * 10 / 25)
  have hv : (0 : ℚ) ≤ (overlapTotal t : ℚ) := by exact_mod_cast overlapTotal_nonneg t
  apply int_nonneg_of_gt_neg_one
  unfold emailCount
  nlinarith

theorem share_sum_le (v : ℤ) (hv : 0 ≤ v) :
    pyRound ((v : ℚ) * 8 / 25) + pyRound ((v : ℚ) * 10 / 25) ≤ v := by
  by_cases h4 : v ≤ 3
  · interval_cases v <;> with_unfolding_all decide
  · have ha := pyRound_le ((v : ℚ) * 8 / 25)
    have hb := pyRound_le ((v : ℚ) * 10 / 25)
    have hv4 : (4 : ℚ) ≤ (v : ℚ) := by exact_mod_cast by omega
    have : ((pyRound ((v : ℚ) * 8 / 25) + pyRound ((v : ℚ) * 10 / 25) : ℤ) : ℚ) ≤ (v : ℚ) := by
      push_cast
      nlinarith
    exact_mod_cast this

theorem phoneCount_nonneg (t : ℕ) : 0 ≤ phoneCount t := by
  have h := share_sum_le (overlapTotal t) (overlapTotal_nonneg t)
  unfold phoneCount tripleCount emailCount
  omega

theorem dupCount_le_none (t : ℕ) (ht : 1 ≤ t) :
    dupCount t ≤ baseCount t - overlapTotal t := by
  by_cases h2 : t ≤ 2
  · interval_cases t <;> with_unfolding_all decide
  · have ha := le_pyRound ((t : ℚ) * 0.90)
    have hb := pyRound_le ((t : ℚ) * 0.25)
    have ht3 : (3 : ℚ) ≤ (t : ℚ) := by exact_mod_cast by omega
    have : ((dupCount t : ℤ) : ℚ) ≤ ((baseCount t - overlapTotal t : ℤ) : ℚ) := by
      unfold dupCount baseCount overlapTotal
      unfold baseCount at ha
      unfold overlapTotal at hb
      push_cast
      nlinarith
    exact_mod_cast this

theorem threshold_sum_eq (t : ℕ) :
    tripleCount t + emailCount t + phoneCount t = overlapTotal t := by
  unfold phoneCount
  ring

/-! ### Category counting -/

theorem overlapTypeOf_eq_none_iff (t i : ℕ) :
    overlapTypeOf t (i + 1) = OverlapType.NONE ↔ overlapN t ≤ i := by
  have h1 := tripleCount_nonneg t
  have h2 := emailCount_nonneg t
  have h3 := phoneCount_nonneg t
  have h4 := overlapTotal_nonneg t
  have h5 := threshold_sum_eq t
  unfold overlapTypeOf overlapN
  split_ifs with ha hb hc <;> constructor <;> intro h <;> first | omega | rfl | exact absurd h (by intro hx; cases hx)

theorem countP_range_ge (a : ℕ) : ∀ n : ℕ, a ≤ n →
    ((List.range n).countP (fun i => decide (a ≤ i))) = n - a := by
  intro n
  induction n with
  | zero => intro h; simp
  | succ n ih =>
    intro h
    rw [List.range_succ, List.countP_append]
    by_cases han : a ≤ n
    · rw [ih han]
      simp only [List.countP_singleton, decide_eq_true_eq]
      rw [if_pos han]
      omega
    · have : a = n + 1 := by omega
      subst this
      simp only [List.countP_singleton, decide_eq_true_eq]
      rw [if_neg han]
      have hz : (List.range n).countP (fun i => decide (n + 1 ≤ i)) = 0 := by
        rw [List.countP_eq_zero]
        intro x hx
        simp only [List.mem_range] at hx
        simp only [decide_eq_true_eq]
        omega
      omega

theorem noneFilter_length (t : ℕ) (src : List SrcRow) (r : CrmRand) :
    ((baseTable t src r).filter
      (fun rec => rec.overlap_type = OverlapType.NONE)).length = baseN t - overlapN t := by
  rw [← List.countP_eq_length_filter]
  unfold baseTable
  rw [List.countP_map]
  have hcongr : ∀ i ∈ List.range (baseN t),
      (((fun rec => decide (rec.overlap_type = OverlapType.NONE)) ∘
        (fun i => mkBaseRecord t (i + 1) src r)) i = true ↔
          (fun i => decide (overlapN t ≤ i)) i = true) := by
    intro i _
    simp only [Function.comp_apply, decide_eq_true_eq]
    have hproj : (mkBaseRecord t (i + 1) src r).overlap_type = overlapTypeOf t (i + 1) := rfl
    rw [hproj]
    exact overlapTypeOf_eq_none_iff t i
  rw [List.countP_congr hcongr]
  apply countP_range_ge
  have h := overlapTotal_le_baseCount t
  have h2 := overlapTotal_nonneg t
  unfold baseN overlapN
  omega

/-! ### Claim C2: allocation arithmetic -/

/-- C2: for every `target_rows` the allocation satisfies `base_count + dup_count =
target_rows` and `triple_count + email_count + phone_count = overlap_total =
round(target_rows*0.25)` exactly, with `triple_count = round(overlap_total*8/25)`,
`email_count = round(overlap_total*10/25)` and `phone_count` the remainder; the category
assignment is the deterministic threshold partition on row indices, and for
`target_rows = 1000`: `base_count = 900`, `dup_count = 100`, `overlap_total = 250`,
`triple_count = 80`, `email_count = 100`, `phone_count = 70`, rows 1-80 TRIPLE,
81-180 EMAIL, 181-250 PHONE, 251-900 NONE. -/
theorem crm_allocation_arithmetic :
    (∀ t : ℕ, baseCount t + dupCount t = t ∧
      tripleCount t + emailCount t + phoneCount t = overlapTotal t ∧
      overlapTotal t = pyRound ((t : ℚ) * 0.25) ∧
      tripleCount t = pyRound ((overlapTotal t : ℚ) * 8 / 25) ∧
      emailCount t = pyRound ((overlapTotal t : ℚ) * 10 / 25) ∧
      phoneCount t = overlapTotal t - tripleCount t - emailCount t) ∧
    baseCount 1000 = 900 ∧ dupCount 1000 = 100 ∧ overlapTotal 1000 = 250 ∧
    tripleCount 1000 = 80 ∧ emailCount 1000 = 100 ∧ phoneCount 1000 = 70 ∧
    (∀ i : ℕ, 1 ≤ i → i ≤ 900 → overlapTypeOf 1000 i =
      (if i ≤ 80 then OverlapType.TRIPLE else if i ≤ 180 then OverlapType.EMAIL
       else if i ≤ 250 then OverlapType.PHONE else OverlapType.NONE)) := by
  have e1 : tripleCount 1000 = 80 := by with_unfolding_all decide
  have e2 : emailCount 1000 = 100 := by with_unfolding_all decide
  have e3 : phoneCount 1000 = 70 := by with_unfolding_all decide
  refine ⟨fun t => ⟨?_, ?_, rfl, rfl, rfl, ?_⟩, ?_, ?_, ?_, e1, e2, e3, ?_⟩
  · unfold dupCount; ring
  · unfold phoneCount; ring
  · unfold phoneCount; ring
  · with_unfolding_all decide
  · with_unfolding_all decide
  · with_unfolding_all decide
  · intro i h1 h2
    unfold overlapTypeOf
    rw [e1, e2, e3]
    split_ifs <;> first | rfl | (exfalso; omega)

/-! ### Customer table: row counts and id structure -/

theorem string_append_left_cancel {a b c : String} (h : a ++ b = a ++ c) : b = c := by
  apply String.ext
  have hd : (a ++ b).data = (a ++ c).data := by rw [h]
  rw [String.data_append, String.data_append] at hd
  exact List.append_cancel_left hd

theorem string_append_right_cancel {a b c : String} (h : a ++ c = b ++ c) : a = b := by
  apply String.ext
  have hd : (a ++ c).data = (b ++ c).data := by rw [h]
  rw [String.data_append, String.data_append] at hd
  exact List.append_cancel_right hd

theorem baseTable_length (t : ℕ) (src : List SrcRow) (r : CrmRand) :
    (baseTable t src r).length = baseN t := by
  unfold baseTable
  rw [List.length_map, List.length_range]

theorem baseIds_eq (t : ℕ) (src : List SrcRow) (r : CrmRand) :
    (baseTable t src r).map CrmRecord.customer_id
      = (List.range (baseN t)).map (fun i => "SF1-" ++ lpad (Nat.repr (i + 1)) 10 '0') := by
  unfold baseTable
  rw [List.map_map]
  rfl

theorem baseN_lt_pow (t : ℕ) (hub : t ≤ 10 ^ 10) : baseN t < 10 ^ 10 := by
  have h := pyRound_le ((t : ℚ) * 0.90)
  have ht : ((t : ℚ)) ≤ ((10 : ℚ) ^ 10) := by exact_mod_cast hub
  have hq : (baseCount t : ℚ) ≤ 9000000000 + 1/2 := by
    unfold baseCount
    nlinarith
  have hz : baseCount t ≤ 9000000000 := by
    by_contra hcon
    push_neg at hcon
    have : ((9000000001 : ℤ) : ℚ) ≤ ((baseCount t : ℤ) : ℚ) := by exact_mod_cast hcon
    push_cast at this
    linarith
  have hp : (10 : ℕ) ^ 10 = 10000000000 := by norm_num
  unfold baseN
  omega

theorem baseIds_nodup (t : ℕ) (src : List SrcRow) (r : CrmRand) (hub : t ≤ 10 ^ 10) :
    ((baseTable t src r).map CrmRecord.customer_id).Nodup := by
  rw [baseIds_eq]
  apply List.Nodup.map_on ?_ (List.nodup_range _)
  intro i hi j hj heq
  simp only [List.mem_range] at hi hj
  have hlt := baseN_lt_pow t hub
  have hpad := string_append_left_cancel heq
  have hinj := lpad_repr_inj 10 (by norm_num) (i + 1) (j + 1) (by omega) (by omega)
    (by omega) (by omega) hpad
  omega

theorem base_id_length (t : ℕ) (src : List SrcRow) (r : CrmRand) (rec : CrmRecord)
    (h : rec ∈ baseTable t src r) : rec.customer_id.length = 14 := by
  unfold baseTable at h
  rw [List.mem_map] at h
  obtain ⟨i, _, hrec⟩ := h
  rw [← hrec]
  show ("SF1-" ++ lpad (Nat.repr (i + 1)) 10 '0').length = 14
  rw [String.length_append, lpad_length]
  rfl

theorem dupIds_eq (t : ℕ) (r : CrmRand) (sel : List CrmRecord) :
    (dupRows t r sel).map CrmRecord.customer_id
      = ((sel.take (dupN t)).map CrmRecord.customer_id).map (fun s => s ++ "_DUP") := by
  unfold dupRows
  rw [List.map_map, List.map_map]
  have hfun : (CrmRecord.customer_id ∘ fun p : ℕ × CrmRecord => mutateDup r p.1 p.2)
      = ((fun s => s ++ "_DUP") ∘ CrmRecord.customer_id) ∘ Prod.snd := by
    funext p
    rfl
  rw [hfun, ← List.map_map, List.enum, List.enumFrom_map_snd]

theorem dupRows_length (t : ℕ) (r : CrmRand) (sel : List CrmRecord)
    (hlen : dupN t ≤ sel.length) : (dupRows t r sel).length = dupN t := by
  unfold dupRows
  rw [List.length_map, List.enum, List.enumFrom_length, List.length_take]
  omega

theorem sel_length_eq (t : ℕ) (src : List SrcRow) (r : CrmRand) (sel : List CrmRecord)
    (hsel : sel.Perm ((baseTable t src r).filter
      (fun rec => rec.overlap_type = OverlapType.NONE))) :
    sel.length = baseN t - overlapN t := by
  rw [hsel.length_eq, noneFilter_length]

theorem dupN_le_sel_length (t : ℕ) (ht : 1 ≤ t) (src : List SrcRow) (r : CrmRand)
    (sel : List CrmRecord)
    (hsel : sel.Perm ((baseTable t src r).filter
      (fun rec => rec.overlap_type = OverlapType.NONE))) :
    dupN t ≤ sel.length := by
  rw [sel_length_eq t src r sel hsel]
  have h1 := dupCount_le_none t ht
  have h2 := overlapTotal_nonneg t
  have h3 := overlapTotal_le_baseCount t
  have h4 := baseCount_nonneg t
  have h5 := baseCount_le_t t
  have hb : ((baseN t : ℕ) : ℤ) = baseCount t := Int.toNat_of_nonneg h4
  have ho : ((overlapN t : ℕ) : ℤ) = overlapTotal t := Int.toNat_of_nonneg h2
  have hd : ((dupN t : ℕ) : ℤ) = dupCount t :=
    Int.toNat_of_nonneg (by unfold dupCount; omega)
  omega

theorem finalTable_length (t : ℕ) (ht : 1 ≤ t) (src : List SrcRow) (r : CrmRand)
    (sel : List CrmRecord)
    (hsel : sel.Perm ((baseTable t src r).filter
      (fun rec => rec.overlap_type = OverlapType.NONE))) :
    (finalTable t src r sel).length = t := by
  unfold finalTable
  rw [List.length_append, baseTable_length,
    dupRows_length t r sel (dupN_le_sel_length t ht src r sel hsel)]
  have h2 := baseCount_nonneg t
  have h3 := baseCount_le_t t
  have hb : ((baseN t : ℕ) : ℤ) = baseCount t := Int.toNat_of_nonneg h2
  have hd : ((dupN t : ℕ) : ℤ) = dupCount t := Int.toNat_of_nonneg (by unfold dupCount; omega)
  have hsum : ((baseN t : ℕ) : ℤ) + ((dupN t : ℕ) : ℤ) = (t : ℤ) := by
    rw [hb, hd]
    unfold dupCount
    ring
  exact_mod_cast hsum

theorem dup_member_shape (t : ℕ) (src : List SrcRow) (r : CrmRand) (sel : List CrmRecord)
    (hsel : sel.Perm ((baseTable t src r).filter
      (fun rec => rec.overlap_type = OverlapType.NONE)))
    (d : CrmRecord) (hd : d ∈ dupRows t r sel) :
    d.overlap_type = OverlapType.DUPLICATE ∧
      ∃ b, b ∈ baseTable t src r ∧ b.overlap_type = OverlapType.NONE ∧
        d.customer_id = b.customer_id ++ "_DUP" := by
  unfold dupRows at hd
  rw [List.mem_map] at hd
  obtain ⟨p, hp, hpd⟩ := hd
  have hsnd : p.2 ∈ sel.take (dupN t) := by
    have := List.enumFrom_map_snd 0 (sel.take (dupN t))
    rw [← List.enum] at this
    rw [← this]
    exact List.mem_map_of_mem Prod.snd hp
  have hmem : p.2 ∈ sel := List.mem_of_mem_take hsnd
  have hmem2 : p.2 ∈ (baseTable t src r).filter
      (fun rec => rec.overlap_type = OverlapType.NONE) := hsel.mem_iff.mp hmem
  rw [List.mem_filter] at hmem2
  refine ⟨by rw [← hpd]; rfl, p.2, hmem2.1, by simpa using hmem2.2, by rw [← hpd]; rfl⟩

theorem finalIds_nodup (t : ℕ) (hub : t ≤ 10 ^ 10) (src : List SrcRow)
    (r : CrmRand) (sel : List CrmRecord)
    (hsel : sel.Perm ((baseTable t src r).filter
      (fun rec => rec.overlap_type = OverlapType.NONE))) :
    ((finalTable t src r sel).map CrmRecord.customer_id).Nodup := by
  unfold finalTable
  rw [List.map_append, List.nodup_append]
  have hbase := baseIds_nodup t src r hub
  have hselids : (sel.map CrmRecord.customer_id).Nodup := by
    have hperm := hsel.map CrmRecord.customer_id
    have hfil : List.Sublist (((baseTable t src r).filter
        (fun rec => rec.overlap_type = OverlapType.NONE)).map CrmRecord.customer_id)
          ((baseTable t src r).map CrmRecord.customer_id) :=
      (List.filter_sublist _).map CrmRecord.customer_id
    exact hperm.nodup_iff.mpr (hfil.nodup hbase)
  have htake : ((sel.take (dupN t)).map CrmRecord.customer_id).Nodup := by
    rw [List.map_take]
    exact (List.take_sublist _ _).nodup hselids
  refine ⟨hbase, ?_, ?_⟩
  · rw [dupIds_eq]
    apply List.Nodup.map_on ?_ htake
    intro x _ y _ hxy
    exact string_append_right_cancel hxy
  · intro x hx hy
    have hx14 : x.length = 14 := by
      rw [List.mem_map] at hx
      obtain ⟨rec, hrec, hxr⟩ := hx
      rw [← hxr]
      exact base_id_length t src r rec hrec
    have hy18 : x.length = 18 := by
      rw [dupIds_eq, List.mem_map] at hy
      obtain ⟨s, hs, hys⟩ := hy
      rw [List.mem_map] at hs
      obtain ⟨rec, hrec, hsr⟩ := hs
      have hrecb : rec ∈ baseTable t src r := by
        have hmem : rec ∈ sel := List.mem_of_mem_take hrec
        have := hsel.mem_iff.mp hmem
        rw [List.mem_filter] at this
        exact this.1
      rw [← hys, String.length_append, ← hsr, base_id_length t src r rec hrecb]
      rfl
    omega

/-! ### Claim C1: exact row count and unique customer ids -/

/-- C1 (amended): for every `target_rows` with `1 ≤ target_rows ≤ 10^10` — the bound keeps
every zero-padded row index inside the 10 characters that `LPAD` allots, beyond which
Snowflake truncates and ids collide — the run materializes exactly `target_rows` records
with pairwise distinct `customer_id`: `base_count = round(target_rows*0.90)` base rows
whose ids are `'SF1-'` plus the zero-padded row index, plus
`dup_count = target_rows - base_count` DUPLICATE rows whose ids are distinct NONE-category
base ids suffixed `'_DUP'`, with no `customer_id` shared between the two sets. -/
theorem crm_exact_rows_unique_ids (t : ℕ) (ht : 1 ≤ t) (hub : t ≤ 10 ^ 10)
    (src : List SrcRow) (r : CrmRand) (sel : List CrmRecord)
    (hsel : sel.Perm ((baseTable t src r).filter
      (fun rec => rec.overlap_type = OverlapType.NONE))) :
    (baseTable t src r).length = baseN t ∧
    (dupRows t r sel).length = dupN t ∧
    (finalTable t src r sel).length = t ∧
    ((finalTable t src r sel).map CrmRecord.customer_id).Nodup ∧
    (baseTable t src r).map CrmRecord.customer_id
      = (List.range (baseN t)).map (fun i => "SF1-" ++ lpad (Nat.repr (i + 1)) 10 '0') ∧
    (∀ d ∈ dupRows t r sel, d.overlap_type = OverlapType.DUPLICATE ∧
      ∃ b, b ∈ baseTable t src r ∧ b.overlap_type = OverlapType.NONE ∧
        d.customer_id = b.customer_id ++ "_DUP") := by
  refine ⟨baseTable_length t src r,
    dupRows_length t r sel (dupN_le_sel_length t ht src r sel hsel),
    finalTable_length t ht src r sel hsel,
    finalIds_nodup t hub src r sel hsel,
    baseIds_eq t src r,
    fun d hd => dup_member_shape t src r sel hsel d hd⟩

/-- C1 witness: the amended theorem instantiated at `target_rows = 20` with an empty
reference population, the constant random bundle, and the identity ordering of the
NONE-category rows. -/
theorem crm_exact_rows_unique_ids_witness :
    (baseTable 20 [] constRand).length = baseN 20 ∧
    (dupRows 20 constRand ((baseTable 20 [] constRand).filter
      (fun rec => rec.overlap_type = OverlapType.NONE))).length = dupN 20 ∧
    (finalTable 20 [] constRand ((baseTable 20 [] constRand).filter
      (fun rec => rec.overlap_type = OverlapType.NONE))).length = 20 ∧
    ((finalTable 20 [] constRand ((baseTable 20 [] constRand).filter
      (fun rec => rec.overlap_type = OverlapType.NONE))).map CrmRecord.customer_id).Nodup ∧
    (baseTable 20 [] constRand).map CrmRecord.customer_id
      = (List.range (baseN 20)).map (fun i => "SF1-" ++ lpad (Nat.repr (i + 1)) 10 '0') ∧
    (∀ d ∈ dupRows 20 constRand ((baseTable 20 [] constRand).filter
        (fun rec => rec.overlap_type = OverlapType.NONE)),
      d.overlap_type = OverlapType.DUPLICATE ∧
      ∃ b, b ∈ baseTable 20 [] constRand ∧ b.overlap_type = OverlapType.NONE ∧
        d.customer_id = b.customer_id ++ "_DUP") :=
  crm_exact_rows_unique_ids 20 (by norm_num) (by norm_num) [] constRand _ (List.Perm.refl _)

/-- C1 counterexample: at `target_rows = 2*10^10` (a "valid" row count the run accepts)
the pipeline violates the claim as stated: `LPAD(row_id::STRING, 10, '0')` truncates row
ids with more than 10 digits, so rows `10^9` and `10^10 + 1` receive the same
`customer_id` and the output ids are not pairwise distinct. -/
theorem crm_unique_ids_counterexample :
    1 ≤ 20000000000 ∧
    ¬ ((finalTable 20000000000 [] constRand ((baseTable 20000000000 [] constRand).filter
        (fun rec => rec.overlap_type = OverlapType.NONE))).map CrmRecord.customer_id).Nodup := by
  refine ⟨by norm_num, ?_⟩
  intro hnd
  unfold finalTable at hnd
  rw [List.map_append] at hnd
  have hbase := hnd.of_append_left
  rw [baseIds_eq] at hbase
  have hinj := List.inj_on_of_nodup_map hbase
  have hbn : baseN 20000000000 = 18000000000 := by with_unfolding_all decide
  have h1 : (999999999 : ℕ) ∈ List.range (baseN 20000000000) := by
    rw [hbn]
    exact List.mem_range.mpr (by norm_num)
  have h2 : (10000000000 : ℕ) ∈ List.range (baseN 20000000000) := by
    rw [hbn]
    exact List.mem_range.mpr (by norm_num)
  have heq : (fun i => "SF1-" ++ lpad (Nat.repr (i + 1)) 10 '0') 999999999
      = (fun i => "SF1-" ++ lpad (Nat.repr (i + 1)) 10 '0') 10000000000 := by
    show "SF1-" ++ lpad (Nat.repr 1000000000) 10 '0'
      = "SF1-" ++ lpad (Nat.repr 10000000001) 10 '0'
    with_unfolding_all decide
  have hcontra := hinj h1 h2 heq
  norm_num at hcontra

/-! ### Claim C4: overlap categories and non-null contact fields -/

theorem srcRowFor_mem (src : List SrcRow) (rowId : ℕ) (h : src ≠ []) :
    ∃ s, srcRowFor src rowId = some s ∧ s ∈ src := by
  unfold srcRowFor
  rw [if_neg (by simpa [List.isEmpty_iff] using h)]
  have hlt : rowId % src.length < src.length := Nat.mod_lt _ (List.length_pos.mpr h)
  cases hget : src.get? (rowId % src.length) with
  | none =>
    rw [List.get?_eq_none] at hget
    omega
  | some s => exact ⟨s, rfl, List.get?_mem hget⟩

/-- C4 (amended): provided the reference population is non-empty and every retained
reference row has non-null email AND non-null phone, every record with category TRIPLE or
PHONE has a non-null phone and every record with category TRIPLE or EMAIL has a non-null
email. (The run itself also accepts reference rows with only one of the two fields; the
counterexample shows the invariant then fails.) -/
theorem crm_overlap_contact_invariant (t : ℕ) (src : List SrcRow) (r : CrmRand)
    (sel : List CrmRecord) (hsrc : src ≠ [])
    (he : ∀ s ∈ src, s.email.isSome = true) (hp : ∀ s ∈ src, s.phone.isSome = true) :
    ∀ rec ∈ finalTable t src r sel,
      ((rec.overlap_type = OverlapType.TRIPLE ∨ rec.overlap_type = OverlapType.PHONE) →
        rec.phone.isSome = true) ∧
      ((rec.overlap_type = OverlapType.TRIPLE ∨ rec.overlap_type = OverlapType.EMAIL) →
        rec.email.isSome = true) := by
  intro rec hrec
  unfold finalTable at hrec
  rw [List.mem_append] at hrec
  rcases hrec with hb | hdp
  · unfold baseTable at hb
    rw [List.mem_map] at hb
    obtain ⟨i, _, hrec⟩ := hb
    subst hrec
    obtain ⟨s, hs, hmem⟩ := srcRowFor_mem src (i + 1) hsrc
    constructor
    · intro hcat
      have hcat' : overlapTypeOf t (i + 1) = OverlapType.TRIPLE ∨
          overlapTypeOf t (i + 1) = OverlapType.PHONE := hcat
      show (phoneFinal t (i + 1) (r.up (i + 1))
        (phoneRawOf t (i + 1) (srcRowFor src (i + 1)) (r.pg (i + 1)))).isSome = true
      unfold phoneFinal
      rw [if_pos hcat']
      unfold phoneRawOf
      rcases hcat' with h | h <;> rw [h] <;> simp only [hs, Option.some_bind] <;>
        exact hp s hmem
    · intro hcat
      have hcat' : overlapTypeOf t (i + 1) = OverlapType.TRIPLE ∨
          overlapTypeOf t (i + 1) = OverlapType.EMAIL := hcat
      show (emailFinal t (i + 1) (r.ue (i + 1))
        (emailRawOf t (i + 1) (srcRowFor src (i + 1)))).isSome = true
      unfold emailFinal
      rw [if_pos hcat']
      unfold emailRawOf
      rcases hcat' with h | h <;> rw [h] <;> simp only [hs, Option.some_bind] <;>
        exact he s hmem
  · have hdup : rec.overlap_type = OverlapType.DUPLICATE := by
      unfold dupRows at hdp
      rw [List.mem_map] at hdp
      obtain ⟨p, _, hpd⟩ := hdp
      rw [← hpd]
      rfl
    constructor <;> intro hcat <;> rcases hcat with h | h <;> rw [hdup] at h <;> cases h

/-- C4 witness: the amended invariant instantiated at `target_rows = 12` with a one-row
reference population carrying both email and phone. -/
theorem crm_overlap_contact_invariant_witness :
    ([⟨some "jean@ex.fr", some "0611223344", some "Jean", some "Sec"⟩] : List SrcRow) ≠ [] ∧
    ∀ rec ∈ finalTable 12 [⟨some "jean@ex.fr", some "0611223344", some "Jean", some "Sec"⟩]
        constRand [],
      ((rec.overlap_type = OverlapType.TRIPLE ∨ rec.overlap_type = OverlapType.PHONE) →
        rec.phone.isSome = true) ∧
      ((rec.overlap_type = OverlapType.TRIPLE ∨ rec.overlap_type = OverlapType.EMAIL) →
        rec.email.isSome = true) :=
  ⟨by decide,
    crm_overlap_contact_invariant 12 _ constRand [] (by decide) (by decide) (by decide)⟩

/-- C4 counterexample: with a reference population whose single retained row has a phone
but a NULL email (the `tmp_source` filter keeps it), the TRIPLE row of the output borrows
the NULL email, violating the claim as stated. -/
theorem crm_overlap_contact_counterexample :
    sourceFilter [⟨none, some "0611223344", none, none⟩]
      = [⟨none, some "0611223344", none, none⟩] ∧
    ∃ rec ∈ finalTable 10 [⟨none, some "0611223344", none, none⟩] constRand [],
      rec.overlap_type = OverlapType.TRIPLE ∧ rec.email = none := by
  with_unfolding_all decide

/-! ### Claim C5: missingness probabilities -/

/-- C5 (code evaluation): `UNIFORM(0,1,RANDOM())` draws an integer from {0,1}, so the
guard `< 0.15` (resp. `< 0.20`) fires exactly when the draw is 0: on a NONE-category row
(row 300 of a 1000-row run) email and phone are each nulled for 1 of the 2 equally likely
draws, i.e. with probability 1/2 — not the 0.15 / 0.20 the module docstring announces.
Rows in the relevant overlap category (e.g. TRIPLE row 1) are never nulled. -/
theorem crm_missingness_probability :
    overlapTypeOf 1000 300 = OverlapType.NONE ∧
    (Finset.univ.filter (fun u : Fin 2 =>
      emailFinal 1000 300 u (some "x") = none)).card = 1 ∧
    (Finset.univ.filter (fun u : Fin 2 =>
      phoneFinal 1000 300 u (some "x") = none)).card = 1 ∧
    ((1 : ℚ)/2 ≠ 0.15) ∧ ((1 : ℚ)/2 ≠ 0.20) ∧
    overlapTypeOf 1000 1 = OverlapType.TRIPLE ∧
    (∀ u : Fin 2, emailFinal 1000 1 u (some "x") = some "x") ∧
    (∀ u : Fin 2, phoneFinal 1000 1 u (some "x") = some "x") := by
  with_unfolding_all decide

/-! ### Claim C6: empty reference population -/

/-- C6 (amended): when the reference population is empty (or every row of it is filtered
out), the run does NOT fail: `NULLIF(..., 0)` turns the join key NULL, the LEFT JOIN
yields no partner, and the run completes with exactly `target_rows` records whose
TRIPLE/EMAIL rows carry NULL email and TRIPLE/PHONE rows carry NULL phone. No
DataSourceError (or any error) is raised. -/
theorem crm_empty_source_completes (t : ℕ) (ht : 1 ≤ t) (r : CrmRand)
    (sel : List CrmRecord)
    (hsel : sel.Perm ((baseTable t [] r).filter
      (fun rec => rec.overlap_type = OverlapType.NONE))) :
    runCrm t [] r sel = Except.ok (finalTable t [] r sel) ∧
    (finalTable t [] r sel).length = t ∧
    ∀ rec ∈ baseTable t [] r,
      ((rec.overlap_type = OverlapType.TRIPLE ∨ rec.overlap_type = OverlapType.EMAIL) →
        rec.email = none) ∧
      ((rec.overlap_type = OverlapType.TRIPLE ∨ rec.overlap_type = OverlapType.PHONE) →
        rec.phone = none) := by
  refine ⟨rfl, finalTable_length t ht [] r sel hsel, ?_⟩
  intro rec hrec
  unfold baseTable at hrec
  rw [List.mem_map] at hrec
  obtain ⟨i, _, hrec⟩ := hrec
  subst hrec
  constructor
  · intro hcat
    have hcat' : overlapTypeOf t (i + 1) = OverlapType.TRIPLE ∨
        overlapTypeOf t (i + 1) = OverlapType.EMAIL := hcat
    show emailFinal t (i + 1) (r.ue (i + 1))
      (emailRawOf t (i + 1) (srcRowFor [] (i + 1))) = none
    unfold emailFinal
    rw [if_pos hcat']
    unfold emailRawOf
    rcases hcat' with h | h <;> rw [h] <;> rfl
  · intro hcat
    have hcat' : overlapTypeOf t (i + 1) = OverlapType.TRIPLE ∨
        overlapTypeOf t (i + 1) = OverlapType.PHONE := hcat
    show phoneFinal t (i + 1) (r.up (i + 1))
      (phoneRawOf t (i + 1) (srcRowFor [] (i + 1)) (r.pg (i + 1))) = none
    unfold phoneFinal
    rw [if_pos hcat']
    unfold phoneRawOf
    rcases hcat' with h | h <;> rw [h] <;> rfl

/-- C6 witness: the amended behaviour at `target_rows = 10` with the empty source. -/
theorem crm_empty_source_completes_witness :
    runCrm 10 [] constRand ((baseTable 10 [] constRand).filter
        (fun rec => rec.overlap_type = OverlapType.NONE))
      = Except.ok (finalTable 10 [] constRand ((baseTable 10 [] constRand).filter
        (fun rec => rec.overlap_type = OverlapType.NONE))) ∧
    (finalTable 10 [] constRand ((baseTable 10 [] constRand).filter
        (fun rec => rec.overlap_type = OverlapType.NONE))).length = 10 ∧
    ∀ rec ∈ baseTable 10 [] constRand,
      ((rec.overlap_type = OverlapType.TRIPLE ∨ rec.overlap_type = OverlapType.EMAIL) →
        rec.email = none) ∧
      ((rec.overlap_type = OverlapType.TRIPLE ∨ rec.overlap_type = OverlapType.PHONE) →
        rec.phone = none) :=
  crm_empty_source_completes 10 (by norm_num) constRand _ (List.Perm.refl _)

/-- C6 counterexample: with the empty reference population and `target_rows = 10` the run
returns `Except.ok` with a full 10-row table — it does not fail with `DataSourceError`
(nor any other error), contradicting the claim as stated. -/
theorem crm_empty_source_counterexample :
    (∀ e : CrmError, runCrm 10 [] constRand ((baseTable 10 [] constRand).filter
        (fun rec => rec.overlap_type = OverlapType.NONE)) ≠ Except.error e) ∧
    (finalTable 10 [] constRand ((baseTable 10 [] constRand).filter
        (fun rec => rec.overlap_type = OverlapType.NONE))).length = 10 := by
  constructor
  · intro e h
    exact Except.noConfusion h
  · exact finalTable_length 10 (by norm_num) [] constRand _ (List.Perm.refl _)

/-! ### Claim C7: determinism of categories and names across runs -/

/-- C7 (amended): two runs with the same `target_rows` (over possibly differently shuffled
copies of the same reference snapshot, and with independent randomness) assign the same
`overlap_category` at every row index, and identical `first_name`/`last_name` at every
row index whose category is not TRIPLE. (TRIPLE rows borrow names from a reference row
selected through the run-local `ROW_NUMBER() OVER (ORDER BY RANDOM())` shuffle, so their
names can differ between runs; see the counterexample.) -/
theorem crm_rerun_same_categories_names (t : ℕ) (src1 src2 : List SrcRow)
    (r1 r2 : CrmRand) (i : ℕ) (rec1 rec2 : CrmRecord)
    (h1 : (baseTable t src1 r1).get? i = some rec1)
    (h2 : (baseTable t src2 r2).get? i = some rec2) :
    rec1.overlap_type = rec2.overlap_type ∧
    (rec1.overlap_type ≠ OverlapType.TRIPLE →
      rec1.first_name = rec2.first_name ∧ rec1.last_name = rec2.last_name) := by
  have hi : i < baseN t := by
    by_contra hcon
    push_neg at hcon
    rw [List.get?_eq_none.mpr (by rw [baseTable_length]; exact hcon)] at h1
    cases h1
  have hg1 : (baseTable t src1 r1).get? i = some (mkBaseRecord t (i + 1) src1 r1) := by
    unfold baseTable
    rw [List.get?_map, List.get?_range hi]
    rfl
  have hg2 : (baseTable t src2 r2).get? i = some (mkBaseRecord t (i + 1) src2 r2) := by
    unfold baseTable
    rw [List.get?_map, List.get?_range hi]
    rfl
  rw [hg1] at h1
  rw [hg2] at h2
  have e1 := Option.some.inj h1
  have e2 := Option.some.inj h2
  subst e1
  subst e2
  refine ⟨rfl, fun hnt => ?_⟩
  have hnt' : overlapTypeOf t (i + 1) ≠ OverlapType.TRIPLE := hnt
  constructor
  · show firstNameOf t (i + 1) (srcRowFor src1 (i + 1))
      = firstNameOf t (i + 1) (srcRowFor src2 (i + 1))
    unfold firstNameOf
    cases hcase : overlapTypeOf t (i + 1) <;> first | exact absurd hcase hnt' | rfl
  · show lastNameOf t (i + 1) (srcRowFor src1 (i + 1))
      = lastNameOf t (i + 1) (srcRowFor src2 (i + 1))
    unfold lastNameOf
    cases hcase : overlapTypeOf t (i + 1) <;> first | exact absurd hcase hnt' | rfl

/-- Reference row used by the idempotence analysis ("Alice"). -/
def crocA : SrcRow := ⟨some "alice@ex.fr", some "0611111111", some "Alice", some "Aval"⟩

/-- Reference row used by the idempotence analysis ("Bob"). -/
def crocB : SrcRow := ⟨some "bob@ex.fr", some "0622222222", some "Bob", some "Bval"⟩

/-- C7 witness: the amended theorem at `target_rows = 10`, row index 1 (an EMAIL-category
row), across the two opposite shuffles of the same two-row reference snapshot. -/
theorem crm_rerun_same_categories_names_witness :
    (baseTable 10 [crocA, crocB] constRand).get? 1
      = some (mkBaseRecord 10 2 [crocA, crocB] constRand) ∧
    (baseTable 10 [crocB, crocA] constRand).get? 1
      = some (mkBaseRecord 10 2 [crocB, crocA] constRand) ∧
    (mkBaseRecord 10 2 [crocA, crocB] constRand).overlap_type
      = (mkBaseRecord 10 2 [crocB, crocA] constRand).overlap_type ∧
    ((mkBaseRecord 10 2 [crocA, crocB] constRand).overlap_type ≠ OverlapType.TRIPLE →
      (mkBaseRecord 10 2 [crocA, crocB] constRand).first_name
        = (mkBaseRecord 10 2 [crocB, crocA] constRand).first_name ∧
      (mkBaseRecord 10 2 [crocA, crocB] constRand).last_name
        = (mkBaseRecord 10 2 [crocB, crocA] constRand).last_name) := by
  have hcon := crm_rerun_same_categories_names 10 [crocA, crocB] [crocB, crocA]
    constRand constRand 1 (mkBaseRecord 10 2 [crocA, crocB] constRand)
    (mkBaseRecord 10 2 [crocB, crocA] constRand)
    (by with_unfolding_all decide) (by with_unfolding_all decide)
  exact ⟨by with_unfolding_all decide, by with_unfolding_all decide, hcon.1, hcon.2⟩

/-- C7 counterexample: the two opposite shuffles of the same two-row reference snapshot
are both legitimate `tmp_source` orderings (permutations of the filtered reference), yet
the TRIPLE row (row index 0) receives first name "Bob" in one run and "Alice" in the
other — the claim that every row's names are identical across runs fails. -/
theorem crm_rerun_names_counterexample :
    ([crocA, crocB] : List SrcRow).Perm (sourceFilter [crocA, crocB]) ∧
    ([crocB, crocA] : List SrcRow).Perm (sourceFilter [crocA, crocB]) ∧
    ((baseTable 10 [crocA, crocB] constRand).map CrmRecord.first_name).get? 0
      ≠ ((baseTable 10 [crocB, crocA] constRand).map CrmRecord.first_name).get? 0 := by
  have hsf : sourceFilter [crocA, crocB] = [crocA, crocB] := by
    with_unfolding_all decide
  refine ⟨by rw [hsf], by rw [hsf]; exact List.Perm.swap crocA crocB [], ?_⟩
  with_unfolding_all decide

/-! ### High-volume event synthesizer

Source: `tf1_viewing_logs_generator_high_volume.py`, `run(session, total_events,
attach_customer_pct, overwrite)`. The pre-materialized `TEMP_CUSTOMER_MAP_HV` (a random
50% sample of the customer table, randomly renumbered) enters the model as the list
`pool`, whose element at index `k-1` carries `rn = k`; `uuid` models `UUID_STRING()` and
`fmt` the calendar rendering `TO_CHAR(event_time, 'YYYYMMDD-HH24')`; `weekStart` is the
epoch second of `DATE_TRUNC('WEEK', CURRENT_DATE())` (hour-aligned). The `device`
VARIANT payload is a pure function of `event_id` not used by any claim and is omitted. -/

/-- Embeds the Python clamp `max(0.0, min(1.0, float(attach_customer_pct)))`. -/
def clamp01 (x : ℚ) : ℚ := max 0 (min 1 x)

/-- Embeds the attachment gate `(e.event_id % 100) < (attach_pct * 100)`. -/
def hvGate (q : ℚ) (id : ℕ) : Bool := decide (((id % 100 : ℕ) : ℚ) < q * 100)

/-- Computable ceiling on ℚ (equal to `Int.ceil`, see `qCeil_eq`). -/
def qCeil (x : ℚ) : ℤ := -((-x).floor)

theorem qCeil_eq (x : ℚ) : qCeil x = ⌈x⌉ := by
  unfold qCeil
  rw [ratFloor_eq_intFloor, Int.floor_neg, neg_neg]

/-- Row of `TF1_VIEWING_LOGS_HIGH_VOLUME`. Times are epoch seconds. -/
structure HvEvent where
  log_id : String
  channel : String
  event_id : ℕ
  event_time : ℤ
  slot_start_time : ℤ
  programme_id : String
  customer_id : Option String
  device_type : String
  os_name : String
  connection_type : String
  bitrate_kbps : ℕ
  buffer_events : ℕ
  rebuffer_ratio : ℚ
  watch_seconds : ℕ
  ad_breaks : ℕ
  ad_total_seconds : ℕ
  event_type : String
  ip_address : String
  isp : String
  country : String
  region : String
  city : String

/-- One event of the high-volume generator, for `event_id = id ∈ 1..total_events`.
`event_time = DATEADD('second', (id - 1) * 2, DATE_TRUNC('WEEK', CURRENT_DATE()) -
INTERVAL '21 days')`; the customer LEFT JOIN key is `(id % pool.length) + 1`. -/
def hvEvent (weekStart : ℤ) (q : ℚ) (pool : List String) (uuid : ℕ → String)
    (fmt : ℤ → String) (id : ℕ) : HvEvent :=
  { log_id := uuid id
    channel := "TF1"
    event_id := id
    event_time := (weekStart - 21 * 86400) + ((id : ℤ) - 1) * 2
    slot_start_time := ((weekStart - 21 * 86400) + ((id : ℤ) - 1) * 2)
      - ((weekStart - 21 * 86400) + ((id : ℤ) - 1) * 2) % 3600
    programme_id := "TF1-" ++ fmt ((weekStart - 21 * 86400) + ((id : ℤ) - 1) * 2)
    customer_id := if hvGate q id then pool.get? (id % pool.length) else none
    device_type := ["SmartTV", "Mobile", "Web", "Tablet"].getD (id % 4) "Tablet"
    os_name := ["Tizen", "iOS", "ChromeOS", "Android"].getD (id % 4) "Android"
    connection_type := ["wifi", "ethernet", "cellular"].getD (id % 3) "cellular"
    bitrate_kbps := 1000 + id % 5000
    buffer_events := id % 8
    rebuffer_ratio := ((id % 50 : ℕ) : ℚ) / 1000
    watch_seconds := 60 + id % 1200
    ad_breaks := (60 + id % 1200) / 180
    ad_total_seconds := ((60 + id % 1200) / 180) * 30
    event_type := if id % 10 = 0 then "play_start" else if id % 10 = 9 then "play_end"
      else if id % 10 = 8 then "pause" else if id % 10 = 7 then "seek" else "play"
    ip_address := if id % 3 = 0 then
        "81." ++ Nat.repr (50 + id % 14) ++ "." ++ Nat.repr (id % 256) ++ "." ++
          Nat.repr ((id * 7) % 256)
      else if id % 3 = 1 then
        "82." ++ Nat.repr (70 + id % 50) ++ "." ++ Nat.repr (id % 256) ++ "." ++
          Nat.repr ((id * 11) % 256)
      else
        "90." ++ Nat.repr (id % 256) ++ "." ++ Nat.repr ((id * 3) % 256) ++ "." ++
          Nat.repr ((id * 13) % 256)
    isp := ["Orange", "Free", "Bouygues"].getD (id % 3) "Bouygues"
    country := "FR"
    region := ["Île-de-France", "Auvergne-Rhône-Alpes", "Provence-Alpes-Côte d\x27Azur",
      "Nouvelle-Aquitaine", "Occitanie", "Hauts-de-France", "Grand Est",
      "Normandie"].getD (id % 8) "Normandie"
    city := ["Paris", "Lyon", "Marseille", "Toulouse", "Nice", "Nantes", "Strasbourg",
      "Montpellier", "Bordeaux", "Lille"].getD (id % 10) "Lille" }

/-- Embeds the full event list: `GENERATOR(ROWCOUNT => total_events)` row-numbered from 1. -/
def hvEvents (total : ℕ) (weekStart : ℤ) (q : ℚ) (pool : List String)
    (uuid : ℕ → String) (fmt : ℤ → String) : List HvEvent :=
  (List.range total).map (fun i => hvEvent weekStart q pool uuid fmt (i + 1))

/-- Embeds `run`: clamps the attachment fraction and builds the table. With an empty
customer pool the SQL `e.event_id % cc.total_customers` divides by zero and the query
errors, modelled by `none`. -/
def runHv (total : ℕ) (pct : ℚ) (pool : List String) (uuid : ℕ → String)
    (fmt : ℤ → String) (weekStart : ℤ) : Option (List HvEvent) :=
  if pool.isEmpty then none
  else some (hvEvents total weekStart (clamp01 pct) pool uuid fmt)

/-! ### Counting the periodic attachment gate -/

theorem countP_range_lt_int (c : ℤ) : ∀ n : ℕ,
    (List.range n).countP (fun r : ℕ => decide ((r : ℤ) < c)) = min n c.toNat := by
  intro n
  induction n with
  | zero => simp
  | succ n ih =>
    rw [List.range_succ, List.countP_append, ih, List.countP_singleton]
    by_cases h : (n : ℤ) < c
    · rw [if_pos (by simpa using h)]
      omega
    · rw [if_neg (by simpa using h)]
      omega

theorem countP_range_lt_rat (x : ℚ) (n : ℕ) :
    (List.range n).countP (fun r : ℕ => decide ((r : ℚ) < x)) = min n (⌈x⌉ : ℤ).toNat := by
  have hc : ∀ r ∈ List.range n,
      (decide ((r : ℚ) < x) = true ↔ decide ((r : ℤ) < ⌈x⌉) = true) := by
    intro r _
    simp only [decide_eq_true_eq]
    have hcast : (((r : ℤ)) : ℚ) = (r : ℚ) := by push_cast; rfl
    rw [Int.lt_ceil, hcast]
  rw [List.countP_congr hc, countP_range_lt_int]

theorem countP_rot100 (h : ℕ → Bool) :
    (List.range 100).countP (fun i => h ((i + 1) % 100)) = (List.range 100).countP h := by
  have h1 : List.range 100 = List.range 99 ++ [99] := by rw [← List.range_succ]
  have h2 : List.range 100 = 0 :: (List.range 99).map (· + 1) := by
    rw [List.range_succ_eq_map]
  conv_lhs => rw [h1]
  conv_rhs => rw [h2]
  rw [List.countP_append, List.countP_singleton, List.countP_cons, List.countP_map]
  have hc : ∀ i ∈ List.range 99,
      ((fun i => h ((i + 1) % 100)) i = true ↔ (h ∘ (· + 1)) i = true) := by
    intro i hi
    rw [List.mem_range] at hi
    simp only [Function.comp_apply]
    rw [Nat.mod_eq_of_lt (by omega)]
  rw [List.countP_congr hc]

theorem countP_range'_period100 (f : ℕ → Bool) (hper : ∀ n, f (n + 100) = f n) :
    ∀ s, (List.range' s 100).countP f = (List.range 100).countP f := by
  intro s
  induction s with
  | zero => rw [List.range_eq_range']
  | succ s ih =>
    rw [← ih]
    have h1 : List.range' s 100 = s :: List.range' (s + 1) 99 := List.range'_succ s 99 1
    have h2 : List.range' (s + 1) 100 = List.range' (s + 1) 99 ++ [s + 100] := by
      have := List.range'_1_concat (s + 1) 99
      simpa using this
    rw [h1, h2, List.countP_cons, List.countP_append, List.countP_singleton, hper s]

theorem hv_block_count (q : ℚ) (hq1 : q ≤ 1) (s : ℕ) :
    (List.range' s 100).countP (fun i => hvGate q (i + 1)) = (qCeil (q * 100)).toNat := by
  have hper : ∀ n, (fun i => hvGate q (i + 1)) (n + 100) = (fun i => hvGate q (i + 1)) n := by
    intro n
    simp only [hvGate]
    have : (n + 100 + 1) % 100 = (n + 1) % 100 := by omega
    rw [this]
  rw [countP_range'_period100 _ hper s]
  have hrot := countP_rot100 (fun r : ℕ => decide (((r : ℕ) : ℚ) < q * 100))
  have hg : ∀ i ∈ List.range 100,
      ((fun i => hvGate q (i + 1)) i = true ↔
        (fun i => decide (((((i + 1) % 100 : ℕ)) : ℚ) < q * 100)) i = true) := by
    intro i _
    simp only [hvGate]
  rw [List.countP_congr hg, hrot, countP_range_lt_rat, qCeil_eq]
  have hle : (⌈q * 100⌉ : ℤ) ≤ 100 := by
    rw [Int.ceil_le]
    push_cast
    nlinarith
  omega

/-! ### Claim C3: high-volume row count and periodic attachment -/

/-- C3 (amended): for every `total_events = N` and every `attach_customer_pct` (clamped to
[0,1]), given a non-empty customer pool, the high-volume run outputs exactly `N` rows and
an event has non-null `customer_id` iff `(event_id mod 100) < attach_pct * 100`; hence
every 100 consecutive events contain exactly `⌈attach_pct * 100⌉` attached events (the
ceiling, not the floor: when `attach_pct * 100` is fractional the strict `<` admits the
residue at `⌊attach_pct*100⌋` as well). -/
theorem hv_rows_and_attachment (total : ℕ) (pct : ℚ) (pool : List String)
    (uuid : ℕ → String) (fmt : ℤ → String) (weekStart : ℤ) (hp : pool ≠ []) :
    runHv total pct pool uuid fmt weekStart
      = some (hvEvents total weekStart (clamp01 pct) pool uuid fmt) ∧
    (hvEvents total weekStart (clamp01 pct) pool uuid fmt).length = total ∧
    (∀ e ∈ hvEvents total weekStart (clamp01 pct) pool uuid fmt,
      e.customer_id.isSome = true ↔ ((e.event_id % 100 : ℕ) : ℚ) < clamp01 pct * 100) ∧
    (∀ s : ℕ, s + 100 ≤ total →
      ((((hvEvents total weekStart (clamp01 pct) pool uuid fmt).drop s).take 100).countP
        (fun e => e.customer_id.isSome)) = (qCeil (clamp01 pct * 100)).toNat) := by
  have hpos : 0 < pool.length := List.length_pos.mpr hp
  have hcust : ∀ id : ℕ, (if hvGate (clamp01 pct) id
      then pool.get? (id % pool.length) else none).isSome = hvGate (clamp01 pct) id := by
    intro id
    by_cases hg : hvGate (clamp01 pct) id
    · rw [if_pos hg, hg]
      have hlt : id % pool.length < pool.length := Nat.mod_lt _ hpos
      cases hget : pool.get? (id % pool.length) with
      | none =>
        rw [List.get?_eq_none] at hget
        omega
      | some c => rfl
    · rw [if_neg hg]
      simp only [Option.isSome_none]
      exact (Bool.not_eq_true _).mp (by simpa using hg) |>.symm
  refine ⟨by unfold runHv; rw [if_neg (by simpa [List.isEmpty_iff] using hp)],
    by unfold hvEvents; rw [List.length_map, List.length_range], ?_, ?_⟩
  · intro e he
    unfold hvEvents at he
    rw [List.mem_map] at he
    obtain ⟨i, _, hei⟩ := he
    subst hei
    show (if hvGate (clamp01 pct) (i + 1)
      then pool.get? ((i + 1) % pool.length) else none).isSome = true ↔ _
    rw [hcust (i + 1)]
    unfold hvGate
    rw [decide_eq_true_eq]
    exact Iff.rfl
  · intro s hs
    unfold hvEvents
    have hsplit : List.range total
        = (List.range' 0 s ++ List.range' s 100) ++ List.range' (s + 100) (total - s - 100) := by
      have h1 := List.range'_append_1 0 s 100
      have h2 := List.range'_append_1 0 (s + 100) (total - s - 100)
      simp only [Nat.zero_add] at h1 h2
      rw [List.range_eq_range', h1, Nat.add_comm 100 s, h2]
      congr 1
      omega
    rw [hsplit, List.map_append, List.map_append]
    rw [List.drop_append_of_le_length (by
      rw [List.length_append, List.length_map, List.length_map,
        List.length_range', List.length_range'] <;> omega)]
    rw [List.drop_append_of_le_length
      (by rw [List.length_map, List.length_range'] <;> omega)]
    rw [List.drop_eq_nil_of_le (by rw [List.length_map, List.length_range'] <;> omega),
      List.nil_append]
    rw [List.take_append_of_le_length
      (by rw [List.length_map, List.length_range'] <;> omega)]
    rw [List.take_of_length_le (by rw [List.length_map, List.length_range'] <;> omega)]
    rw [List.countP_map]
    have hc : ∀ i ∈ List.range' s 100,
        (((fun e => e.customer_id.isSome) ∘
          (fun i => hvEvent weekStart (clamp01 pct) pool uuid fmt (i + 1))) i = true ↔
          (fun i => hvGate (clamp01 pct) (i + 1)) i = true) := by
      intro i _
      simp only [Function.comp_apply]
      rw [show (hvEvent weekStart (clamp01 pct) pool uuid fmt (i + 1)).customer_id
        = (if hvGate (clamp01 pct) (i + 1)
            then pool.get? ((i + 1) % pool.length) else none) from rfl]
      rw [hcust (i + 1)]
    rw [List.countP_congr hc]
    exact hv_block_count (clamp01 pct) (by unfold clamp01; simp) s

/-- C3 witness: the amended theorem instantiated at `total_events = 200`,
`attach_customer_pct = 0.30`, a two-customer pool. -/
theorem hv_rows_and_attachment_witness :
    runHv 200 (3/10) ["A", "B"] (fun _ => "u") (fun _ => "f") 0
      = some (hvEvents 200 0 (clamp01 (3/10)) ["A", "B"] (fun _ => "u") (fun _ => "f")) ∧
    (hvEvents 200 0 (clamp01 (3/10)) ["A", "B"] (fun _ => "u") (fun _ => "f")).length = 200 ∧
    (∀ e ∈ hvEvents 200 0 (clamp01 (3/10)) ["A", "B"] (fun _ => "u") (fun _ => "f"),
      e.customer_id.isSome = true ↔ ((e.event_id % 100 : ℕ) : ℚ) < clamp01 (3/10) * 100) ∧
    (∀ s : ℕ, s + 100 ≤ 200 →
      ((((hvEvents 200 0 (clamp01 (3/10)) ["A", "B"] (fun _ => "u")
          (fun _ => "f")).drop s).take 100).countP
        (fun e => e.customer_id.isSome)) = (qCeil (clamp01 (3/10) * 100)).toNat) :=
  hv_rows_and_attachment 200 (3/10) ["A", "B"] (fun _ => "u") (fun _ => "f") 0
    (by intro h; cases h)

/-- C3 counterexample: at `attach_customer_pct = 0.305` the first 100 events contain 31
attached events — the residues 0..30 all pass the strict `< 30.5` gate — not
`floor(attach_pct*100) = 30` as claimed. -/
theorem hv_attachment_counterexample :
    ((hvEvents 200 0 (clamp01 (61/200)) ["A"] (fun _ => "u") (fun _ => "f")).take 100).countP
      (fun e => e.customer_id.isSome) = 31 ∧
    (((61 : ℚ)/200) * 100).floor.toNat = 30 ∧ (31 : ℕ) ≠ 30 := by
  refine ⟨by with_unfolding_all decide, by with_unfolding_all decide, by norm_num⟩

/-! ### Claim C8: event time formula and the 4-week window -/

/-- C8 (code evaluation): every event's `event_time` equals the window anchor
(`week start - 21 days`) plus `(event_id - 1) * 2` seconds — but the events do NOT all
lie within a 4-week window: at the default `total_events = 5,000,000`, event 1,209,601
already sits exactly 4 weeks (2,419,200 s) past the anchor, and later events reach
roughly 16.5 weeks, contradicting the code comment "Spread events over 4 weeks". -/
theorem hv_event_time_window_overflow :
    (∀ (total i : ℕ), i < total → ∀ (weekStart : ℤ) (q : ℚ) (pool : List String)
      (uuid : ℕ → String) (fmt : ℤ → String),
      ((hvEvents total weekStart q pool uuid fmt).get? i).map HvEvent.event_time
        = some ((weekStart - 21 * 86400) + ((i : ℤ) + 1 - 1) * 2)) ∧
    ((hvEvents 5000000 0 (clamp01 (3/10)) ["A"] (fun _ => "u") (fun _ => "f")).get?
        1209600).map HvEvent.event_time = some ((0 - 21 * 86400) + 2419200) ∧
    ¬ ((0 - 21 * 86400 : ℤ) + 2419200 < (0 - 21 * 86400) + 4 * 7 * 86400) := by
  have hform : ∀ (total i : ℕ), i < total → ∀ (weekStart : ℤ) (q : ℚ) (pool : List String)
      (uuid : ℕ → String) (fmt : ℤ → String),
      ((hvEvents total weekStart q pool uuid fmt).get? i).map HvEvent.event_time
        = some ((weekStart - 21 * 86400) + ((i : ℤ) + 1 - 1) * 2) := by
    intro total i hi weekStart q pool uuid fmt
    unfold hvEvents
    rw [List.get?_map, List.get?_range hi]
    show some ((weekStart - 21 * 86400) + ((((i : ℕ) + 1 : ℕ) : ℤ) - 1) * 2) = _
    congr 1
    all_goals push_cast
    all_goals ring
  refine ⟨hform, ?_, by norm_num⟩
  have := hform 5000000 1209600 (by norm_num) 0 (clamp01 (3/10)) ["A"]
    (fun _ => "u") (fun _ => "f")
  rw [this]
  norm_num

/-! ### Calendar-weighted generator: device and connection draws

Source: `tf1_viewing_logs_generator.py`, `with_device` CTE. Each WHEN arm of the CASE
performs its own independent `UNIFORM(0,1,RANDOM())` integer draw from {0, 1}. -/

/-- Embeds the `device_type` CASE: `WHEN UNIFORM(0,1,RANDOM()) < 0.45 THEN 'SmartTV'
WHEN UNIFORM(0,1,RANDOM()) < 0.70 THEN 'Mobile' WHEN UNIFORM(0,1,RANDOM()) < 0.85 THEN
'Web' ELSE 'Tablet'` with the three independent draws `u1, u2, u3`. -/
def tfDeviceType (u1 u2 u3 : Fin 2) : String :=
  if ((u1 : ℕ) : ℚ) < 0.45 then "SmartTV"
  else if ((u2 : ℕ) : ℚ) < 0.70 then "Mobile"
  else if ((u3 : ℕ) : ℚ) < 0.85 then "Web"
  else "Tablet"

/-- Embeds the `connection_type` CASE: `WHEN UNIFORM(0,1,RANDOM()) < 0.7 THEN 'wifi'
WHEN UNIFORM(0,1,RANDOM()) < 0.9 THEN 'ethernet' ELSE 'cellular'`. -/
def tfConnectionType (u1 u2 : Fin 2) : String :=
  if ((u1 : ℕ) : ℚ) < 0.7 then "wifi"
  else if ((u2 : ℕ) : ℚ) < 0.9 then "ethernet"
  else "cellular"

/-- C9 (code evaluation): over the 8 equally likely triples of integer draws the device
CASE yields SmartTV with probability 4/8 = 1/2, Mobile 2/8, Web 1/8 and Tablet 1/8 —
not the claimed 45/25/15/15 split (the thresholds 0.45/0.70/0.85 were written as
cumulative bounds for a single uniform draw, but each WHEN re-draws and the draw is an
integer in {0,1}). Likewise connection_type is wifi/ethernet/cellular with probability
2/4, 1/4, 1/4 instead of 70/20/10. -/
theorem tf_device_connection_distribution :
    (Finset.univ.filter (fun u : Fin 2 × Fin 2 × Fin 2 =>
      tfDeviceType u.1 u.2.1 u.2.2 = "SmartTV")).card = 4 ∧
    (Finset.univ.filter (fun u : Fin 2 × Fin 2 × Fin 2 =>
      tfDeviceType u.1 u.2.1 u.2.2 = "Mobile")).card = 2 ∧
    (Finset.univ.filter (fun u : Fin 2 × Fin 2 × Fin 2 =>
      tfDeviceType u.1 u.2.1 u.2.2 = "Web")).card = 1 ∧
    (Finset.univ.filter (fun u : Fin 2 × Fin 2 × Fin 2 =>
      tfDeviceType u.1 u.2.1 u.2.2 = "Tablet")).card = 1 ∧
    ((4 : ℚ)/8 ≠ 45/100) ∧ ((2 : ℚ)/8 = 25/100) ∧ ((1 : ℚ)/8 ≠ 15/100) ∧
    (Finset.univ.filter (fun u : Fin 2 × Fin 2 =>
      tfConnectionType u.1 u.2 = "wifi")).card = 2 ∧
    (Finset.univ.filter (fun u : Fin 2 × Fin 2 =>
      tfConnectionType u.1 u.2 = "ethernet")).card = 1 ∧
    (Finset.univ.filter (fun u : Fin 2 × Fin 2 =>
      tfConnectionType u.1 u.2 = "cellular")).card = 1 ∧
    ((2 : ℚ)/4 ≠ 70/100) ∧ ((1 : ℚ)/4 ≠ 20/100) ∧ ((1 : ℚ)/4 ≠ 10/100) := by
  with_unfolding_all decide

/-! ### Calendar-simple generator

Source: `tf1_viewing_logs_generator_simple.py`. `TEMP_CUSTOMER_MAP` (a 10% sample of the
customer table, randomly renumbered 1..count) is the list `pool` (index `k-1` has
`rn = k`); the attachment gate is the same `(event_id % 100) < attach_pct * 100`
expression as the high-volume variant (`hvGate`); the join key is the fixed
`customer_rn_target = (event_id % 1000) + 1`, with NO bound on the pool size. -/

/-- Row of `TF1_VIEWING_LOGS` (fields the claims touch, plus the deterministic
modulo-derived ones; the VARIANT payload is omitted). Times are epoch seconds. -/
structure TfsEvent where
  log_id : String
  channel : String
  event_id : ℕ
  event_time : ℤ
  slot_start_time : ℤ
  programme_id : String
  customer_id : Option String
  device_type : String
  os_name : String
  connection_type : String
  bitrate_kbps : ℕ
  buffer_events : ℕ
  rebuffer_ratio : ℚ
  watch_seconds : ℕ
  ad_breaks : ℕ
  ad_total_seconds : ℕ
  event_type : String
  isp : String
  country : String
  region : String
  city : String

/-- One event of the simple generator: `event_time = DATEADD('minute', (id-1)*5,
DATE_TRUNC('WEEK', CURRENT_DATE()))`; `customer_id` is non-null only when the gate fires
AND the LEFT JOIN on `rn = (id % 1000) + 1` finds a pool row. -/
def tfsEvent (weekStart : ℤ) (q : ℚ) (pool : List String) (uuid : ℕ → String)
    (fmt : ℤ → String) (id : ℕ) : TfsEvent :=
  { log_id := uuid id
    channel := "TF1"
    event_id := id
    event_time := weekStart + ((id : ℤ) - 1) * 300
    slot_start_time := (weekStart + ((id : ℤ) - 1) * 300)
      - (weekStart + ((id : ℤ) - 1) * 300) % 3600
    programme_id := "TF1-" ++ fmt (weekStart + ((id : ℤ) - 1) * 300)
    customer_id := if hvGate q id then pool.get? (id % 1000) else none
    device_type := ["SmartTV", "Mobile", "Web", "Tablet"].getD (id % 4) "Tablet"
    os_name := if id % 4 = 0 then
        (if id % 3 = 0 then "Tizen" else if id % 3 = 1 then "webOS" else "Android TV")
      else if id % 4 = 1 then (if id % 2 = 0 then "Android" else "iOS")
      else if id % 4 = 2 then "ChromeOS"
      else (if id % 2 = 0 then "Android" else "iPadOS")
    connection_type := ["wifi", "ethernet", "cellular"].getD (id % 3) "cellular"
    bitrate_kbps := 800 + id % 5700
    buffer_events := id % 6
    rebuffer_ratio := ((id % 80 : ℕ) : ℚ) / 1000
    watch_seconds := 30 + id % 1770
    ad_breaks := (30 + id % 1770) / 180
    ad_total_seconds := ((30 + id % 1770) / 180) * 30
    event_type := if id % 20 = 0 then "play_start" else if id % 20 = 19 then "play_end"
      else if id % 20 = 18 then "pause" else if id % 20 = 17 then "seek" else "play"
    isp := ["Orange", "Free", "Bouygues"].getD (id % 3) "Bouygues"
    country := "FR"
    region := ["Île-de-France", "Auvergne-Rhône-Alpes", "Provence-Alpes-Côte d\x27Azur",
      "Nouvelle-Aquitaine", "Occitanie", "Hauts-de-France"].getD (id % 6) "Hauts-de-France"
    city := ["Paris", "Lyon", "Marseille", "Bordeaux", "Toulouse", "Lille"].getD
      (id % 6) "Lille" }

/-- Embeds the event list: `GENERATOR(ROWCOUNT => 2016 * sample_multiplier)`. -/
def tfsEvents (m : ℕ) (weekStart : ℤ) (q : ℚ) (pool : List String) (uuid : ℕ → String)
    (fmt : ℤ → String) : List TfsEvent :=
  (List.range (2016 * m)).map (fun i => tfsEvent weekStart q pool uuid fmt (i + 1))

/-- Embeds `run`: clamps the attachment fraction and builds the table (the simple
generator has no modulo-by-pool-count, so an empty pool does not error). -/
def runTfs (m : ℕ) (pct : ℚ) (pool : List String) (uuid : ℕ → String)
    (fmt : ℤ → String) (weekStart : ℤ) : List TfsEvent :=
  tfsEvents m weekStart (clamp01 pct) pool uuid fmt

theorem get?_isSome_eq_decide {α : Type} (l : List α) (n : ℕ) :
    (l.get? n).isSome = decide (n < l.length) := by
  by_cases h : n < l.length
  · cases hget : l.get? n with
    | none =>
      rw [List.get?_eq_none] at hget
      omega
    | some a => simp [h]
  · rw [List.get?_eq_none.mpr (by omega)]
    simp [h]

theorem tfs_count_attached (m : ℕ) (weekStart : ℤ) (q : ℚ) (pool : List String)
    (uuid : ℕ → String) (fmt : ℤ → String) :
    (tfsEvents m weekStart q pool uuid fmt).countP (fun e => e.customer_id.isSome)
      = (List.range (2016 * m)).countP
          (fun i => hvGate q (i + 1) && decide ((i + 1) % 1000 < pool.length)) := by
  unfold tfsEvents
  rw [List.countP_map]
  apply List.countP_congr
  intro i _
  simp only [Function.comp_apply]
  rw [show (tfsEvent weekStart q pool uuid fmt (i + 1)).customer_id
    = (if hvGate q (i + 1) then pool.get? ((i + 1) % 1000) else none) from rfl]
  by_cases hg : hvGate q (i + 1)
  · rw [if_pos hg, hg, get?_isSome_eq_decide]
    simp
  · rw [if_neg hg]
    simp only [Option.isSome_none]
    constructor
    · intro h
      cases h
    · intro h
      rw [Bool.and_eq_true] at h
      exact absurd h.1 hg

/-! ### Claim C10: silent NULL attachment beyond the pool size -/

/-- C10 (amended): every event that passes the attachment gate but whose fixed target
index `(event_id mod 1000) + 1` exceeds the pool row count is written with NULL
`customer_id`, with no error or warning (the model has no error channel because the SQL
has none); consequently the attached count equals the number of gated events whose target
falls inside the pool. (A pool of fewer than 1000 rows does not by itself push the
achieved rate below `attach_customer_pct`: see the counterexample, where a 999-row pool
loses no gated event.) -/
theorem tfs_overflow_targets_null (m : ℕ) (pct : ℚ) (pool : List String)
    (uuid : ℕ → String) (fmt : ℤ → String) (weekStart : ℤ) :
    (∀ e ∈ runTfs m pct pool uuid fmt weekStart,
      hvGate (clamp01 pct) e.event_id = true →
      pool.length < (e.event_id % 1000) + 1 →
      e.customer_id = none) ∧
    (runTfs m pct pool uuid fmt weekStart).countP (fun e => e.customer_id.isSome)
      = (List.range (2016 * m)).countP
          (fun i => hvGate (clamp01 pct) (i + 1) && decide ((i + 1) % 1000 < pool.length)) := by
  constructor
  · intro e he hg hover
    unfold runTfs tfsEvents at he
    rw [List.mem_map] at he
    obtain ⟨i, _, hei⟩ := he
    subst hei
    show (if hvGate (clamp01 pct) ((i + 1)) then pool.get? ((i + 1) % 1000) else none) = none
    have hg' : hvGate (clamp01 pct) (i + 1) = true := hg
    rw [if_pos hg']
    rw [List.get?_eq_none]
    have : (tfsEvent weekStart (clamp01 pct) pool uuid fmt (i + 1)).event_id = i + 1 := rfl
    rw [this] at hover
    omega
  · exact tfs_count_attached m weekStart (clamp01 pct) pool uuid fmt

/-- C10 counterexample: with the default `attach_customer_pct = 0.30`, one week of
events (`sample_multiplier = 1`, 2016 events) and a 999-row pool — fewer than 1000 rows —
every gated event's target (at most 930) still lands inside the pool: 616 of 2016 events
attach, and 616/2016 is NOT below 0.30. The claim's "whenever the sample yields fewer
than 1000 pool rows the achieved rate falls below attach_customer_pct" is false. -/
theorem tfs_pool_undershoot_counterexample :
    (List.replicate 999 "c").length = 999 ∧ (999 : ℕ) < 1000 ∧
    (runTfs 1 (3/10) (List.replicate 999 "c") (fun _ => "u") (fun _ => "f") 0).countP
      (fun e => e.customer_id.isSome) = 616 ∧
    (runTfs 1 (3/10) (List.replicate 999 "c") (fun _ => "u") (fun _ => "f") 0).length = 2016 ∧
    ¬ (((616 : ℚ)/2016) < 3/10) := by
  refine ⟨by simp, by norm_num, ?_, ?_, by norm_num⟩
  · unfold runTfs
    rw [tfs_count_attached]
    with_unfolding_all decide
  · unfold runTfs tfsEvents
    rw [List.length_map, List.length_range]
